import Mathlib

/-!
Verification of the mhcflurry worker-pool subsystem (mhcflurry/parallelism.py)
and downloads resolver (mhcflurry/downloads.py) via a shallow embedding.

Conventions of the embedding:
* Python dicts with int keys in insertion order are association lists
  `List (Nat × Int)` kept in insertion order.
* Python truthiness of an optional int (e.g. of max_tasks_per_worker) is made
  explicit: `none` and `some 0` are falsy; likewise an absent or empty list
  is falsy.
* Raising an exception is an `Except.error`; the filesystem and cpu_count()
  are passed in as explicit parameters.
-/

namespace Mhcflurry

/-- Per-worker initializer kwargs, as built by worker_pool_with_gpu_assignments:
the dict holding gpu_device_nums and keras_backend. -/
structure InitKwargs where
  gpu_device_nums : List Nat
  keras_backend : Option String
deriving DecidableEq, Repr

/-! ## GPU assignment planning (worker_pool_with_gpu_assignments, lines 82-105)

gpu_assignments_remaining is a dict from GPU id to remaining capacity,
built in insertion order 0, 1, ..., num_gpus-1.  Each worker picks
`sorted(gpu_assignments_remaining, key=lambda key: ...)[0]`,
i.e. the key with the smallest value, ties broken by dict (insertion) order
since the Python sort is stable. -/

/-- First pair with minimal second component (Python stable `sorted(...)[0]`:
an earlier entry wins ties). -/
def minByVal : List (Nat × Int) → Option (Nat × Int)
  | [] => none
  | p :: rest =>
    match minByVal rest with
    | none => some p
    | some q => if q.2 < p.2 then some q else some p

/-- `sorted(gpu_assignments_remaining, key=...)[0]` guarded by the dict
non-emptiness test (`if gpu_assignments_remaining:`). -/
def selectGpu (rem : List (Nat × Int)) : Option Nat :=
  (minByVal rem).map Prod.fst

/-- `gpu_assignments_remaining[gpu_num] -= 1` followed by
`if not gpu_assignments_remaining[gpu_num]: del ...`:
decrement the value at key `g`, removing the entry when the value reaches 0
(a dict value update keeps insertion order; deletion removes the entry). -/
def decGpu (g : Nat) : List (Nat × Int) → List (Nat × Int)
  | [] => []
  | p :: rest =>
    if p.1 = g then
      (if p.2 - 1 = 0 then rest else (p.1, p.2 - 1) :: rest)
    else
      p :: decGpu g rest

/-- The `for worker_num in range(num_workers)` loop: each worker receives
`[gpu_num]` while the dict is non-empty, else `[]` (CPU). -/
def planGo : Nat → List (Nat × Int) → List (List Nat)
  | 0, _ => []
  | n + 1, rem =>
    match selectGpu rem with
    | some g => [g] :: planGo n (decGpu g rem)
    | none => [] :: planGo n rem

/-- The whole planning phase: initial dict
`dict((gpu, max_workers_per_gpu) for gpu in range(num_gpus))`, then the loop. -/
def planGpuAssignments (numWorkers numGpus : Nat) (maxWorkersPerGpu : Int) :
    List (List Nat) :=
  planGo numWorkers ((List.range numGpus).map (fun g => (g, maxWorkersPerGpu)))

/-- `if backend != "tensorflow-default": backend = "tensorflow-default"`. -/
def forcedBackend (backend : Option String) : Option String :=
  if backend ≠ some ("tensorflow-default") then some ("tensorflow-default")
  else backend

/-- The worker_init_kwargs value computed in worker_pool_with_gpu_assignments:
`none` when num_gpus is falsy (the planning block is skipped entirely),
otherwise one kwargs dict per worker. -/
def workerInitKwargsOf (numWorkers numGpus : Nat) (backend : Option String)
    (maxWorkersPerGpu : Int) : Option (List InitKwargs) :=
  if numGpus ≠ 0 then
    some ((planGpuAssignments numWorkers numGpus maxWorkersPerGpu).map
      (fun a => ⟨a, forcedBackend backend⟩))
  else
    none

/-! ## make_worker_pool (lines 115-188) -/

/-- What make_worker_pool installs as the pool initializer entry:
nothing, the given initializer function directly (no args), or
worker_init_entry_point bound to the two seeded kwargs queues. -/
inductive PoolInitializer where
  | noInit : PoolInitializer
  | plain : PoolInitializer
  | entryPoint (primary backup : List InitKwargs) : PoolInitializer
deriving DecidableEq, Repr

/-- The keyword arguments make_worker_pool passes to multiprocessing.Pool. -/
structure PoolConfig where
  processes : Nat
  maxtasksperchild : Option Int
  init : PoolInitializer
deriving DecidableEq, Repr

/-- The only exception make_worker_pool itself raises: the failed
`assert len(initializer_kwargs_per_process) == processes` (this is what the
spec calls ConfigurationError). -/
inductive BuildError where
  | assertionError : BuildError
deriving DecidableEq, Repr

/-- make_worker_pool(processes, initializer, initializer_kwargs_per_process,
max_tasks_per_worker).  `cpuCount` stands for cpu_count();
`hasInit` for the truthiness of the initializer argument.  Python truthiness
is explicit: processes is falsy when `none`/`some 0`, max_tasks_per_worker
falsy when `none`/`some 0`, a kwargs list falsy when absent or empty. -/
def make_worker_pool (cpuCount : Nat) (processes : Option Nat) (hasInit : Bool)
    (initKwargsPerProcess : Option (List InitKwargs))
    (maxTasksPerWorker : Option Int) : Except BuildError PoolConfig :=
  let procs : Nat :=
    match processes with
    | none => cpuCount
    | some p => if p = 0 then cpuCount else p
  let mtpc : Option Int :=
    match maxTasksPerWorker with
    | none => none
    | some m => if m = 0 then none else some m
  if hasInit then
    match initKwargsPerProcess with
    | some kws =>
      if kws.isEmpty then
        Except.ok ⟨procs, mtpc, PoolInitializer.plain⟩
      else if kws.length = procs then
        Except.ok ⟨procs, mtpc, PoolInitializer.entryPoint kws kws⟩
      else
        Except.error BuildError.assertionError
    | none => Except.ok ⟨procs, mtpc, PoolInitializer.plain⟩
  else
    Except.ok ⟨procs, mtpc, PoolInitializer.noInit⟩

/-- worker_pool_with_gpu_assignments(num_jobs, num_gpus, backend,
max_workers_per_gpu, max_tasks_per_worker) (lines 61-112).
Returns `ok none` for the "no pool" sentinel None.
`num_workers = num_jobs if num_jobs else cpu_count()`; only when that value
is 0 does the function return None. -/
def worker_pool_with_gpu_assignments (cpuCount : Nat) (numJobs numGpus : Nat)
    (backend : Option String) (maxWorkersPerGpu : Int)
    (maxTasksPerWorker : Option Int) :
    Except BuildError (Option PoolConfig) :=
  let numWorkers : Nat := if numJobs ≠ 0 then numJobs else cpuCount
  if numWorkers = 0 then
    Except.ok none
  else
    (make_worker_pool cpuCount (some numWorkers) true
      (workerInitKwargsOf numWorkers numGpus backend maxWorkersPerGpu)
      maxTasksPerWorker).map some

/-! ## worker_init_entry_point (lines 191-208)

We model the branch in which the queue pair is provided (as make_worker_pool
always does when per-process kwargs exist).  Queues are FIFO lists whose head
is the next element `get` returns; `put` appends at the tail.  A blocking
`get` on an empty queue never returns (`none`).  The Finalize exit hook
(push the kwargs back to the primary queue on worker exit) runs at teardown
and is not part of the initialization read modelled here. -/

/-- Result: the kwargs obtained plus the post-read states of the primary and
backup queues; `none` when the blocking backup `get` would block forever. -/
def worker_init_entry_point (argQueue backupArgQueue : List InitKwargs) :
    Option (InitKwargs × List InitKwargs × List InitKwargs) :=
  match argQueue with
  | k :: rest => some (k, rest, backupArgQueue)
  | [] =>
    match backupArgQueue with
    | k :: rest => some (k, [], rest ++ [k])
    | [] => none

/-! ## Exception wrapping (WrapException, call_wrapped, lines 222-244) -/

/-- CPython Exception.__str__ as a function of the (stringified) args
tuple: empty args give "", a single arg gives that arg, several args give
the tuple rendering. -/
def exceptionArgsStr : List String → String
  | [] => ""
  | [a] => a
  | args => "(" ++ String.intercalate (", ") args ++ ")"

/-- A Python exception value: its type name and its args (stringified). -/
structure PyExc where
  excType : String
  args : List String
deriving DecidableEq, Repr

/-- str(e) for an exception value. -/
def PyExc.str (e : PyExc) : String :=
  exceptionArgsStr e.args

/-- `"".join(traceback.format_exception(exc_type, exc_value, exc_tb))`:
models the CPython traceback module (an external collaborator), with `stack`
the rendered stack-frame lines of the traceback at the failure point. -/
def formatException (e : PyExc) (stack : String) : String :=
  "Traceback (most recent call last):\n" ++ stack ++
    (if PyExc.str e = "" then e.excType ++ "\n"
     else e.excType ++ (": ") ++ PyExc.str e ++ "\n")

/-- WrapException as constructed by its __init__: the `exception` field is
the original exception value, `formatted` the joined formatted traceback.
__init__ passes nothing to Exception, so the args tuple of the wrapper
itself is empty. -/
structure WrapException where
  args : List String
  exception : PyExc
  formatted : String
deriving DecidableEq, Repr

/-- WrapException() evaluated inside an except block where sys.exc_info()
yields `excValue` raised with the frames in `stack`. -/
def WrapException.capture (excValue : PyExc) (stack : String) : WrapException :=
  { args := [], exception := excValue,
    formatted := formatException excValue stack }

/-- WrapException.__str__: the percent-format of the pattern
"(wrapper Exception string)(newline)Original traceback:(newline)(formatted)",
where the first part is Exception.__str__(self), i.e. the string of the
args tuple of the wrapper itself. -/
def WrapException.str (w : WrapException) : String :=
  exceptionArgsStr w.args ++ "\nOriginal traceback:\n" ++ w.formatted

/-- call_wrapped(function, *args, **kwargs).  The argument `result` is the
outcome of `function(*args, **kwargs)`: a value, or a raised exception
together with the traceback frames at the failure point (the bare except
clause catches every exception). -/
def call_wrapped {β : Type} (result : Except (PyExc × String) β) :
    Except WrapException β :=
  match result with
  | Except.ok v => Except.ok v
  | Except.error es => Except.error (WrapException.capture es.1 es.2)

/-! ## Downloads resolver (mhcflurry/downloads.py, get_path, lines 93-120) -/

/-- POSIX os.path.join on two components: an absolute second component
replaces the first; otherwise a separator is inserted unless the first part
is empty or already ends with one. -/
def osPathJoin (a b : String) : String :=
  if b.startsWith ("/") then b
  else if a = "" then b
  else if a.endsWith ("/") then a ++ b
  else a ++ ("/") ++ b

/-- Characters pipes.quote (shlex) considers safe: letters, digits, and
underscore, at-sign, percent, plus, equals, colon, comma, dot, slash, dash. -/
def isShellSafeChar (c : Char) : Bool :=
  c.isAlphanum || c = Char.ofNat 95 || c = Char.ofNat 64 || c = Char.ofNat 37 ||
    c = Char.ofNat 43 || c = Char.ofNat 61 || c = Char.ofNat 58 ||
    c = Char.ofNat 44 || c = Char.ofNat 46 || c = Char.ofNat 47 ||
    c = Char.ofNat 45

/-- pipes.quote: return the string unchanged when every character is safe,
else wrap it in single quotes, escaping embedded single quotes. -/
def shellQuote (s : String) : String :=
  if s = "" then "\x27\x27"
  else if s.all isShellSafeChar then s
  else "\x27" ++ s.replace ("\x27") ("\x27\"\x27\"\x27") ++ "\x27"

/-- get_path(download_name, filename, test_exists).  `downloadsDir` stands
for get_downloads_dir() and `fsExists` for os.path.exists.  The slash test
`assert a-slash not in download_name` is the membership of the slash
character in the characters of the string.  The failed assert and the
RuntimeError for a missing file (what the spec calls DownloadMissingError)
are the error outcomes. -/
def get_path (downloadsDir : String) (fsExists : String → Bool)
    (download_name : String) (filename : String) (test_exists : Bool) :
    Except String String :=
  if download_name.data.contains (Char.ofNat 47) then
    Except.error ("Invalid download: " ++ download_name)
  else
    let path := osPathJoin (osPathJoin downloadsDir download_name) filename
    if test_exists && !(fsExists path) then
      Except.error ("Missing MHCflurry downloadable file: " ++ shellQuote path ++
        ". To download this data, run:\n\tmhcflurry-downloads fetch " ++
        download_name ++ "\nin a shell.")
    else
      Except.ok path

/-! ## Verification helper definitions -/

/-- The keys of the capacity dict, in order. -/
abbrev keysOf (rem : List (Nat × Int)) : List Nat := rem.map Prod.fst

/-- Number of workers a plan assigns to GPU `g`. -/
def assignCount (g : Nat) (plan : List (List Nat)) : Nat :=
  plan.countP (fun a => a.contains g)

/-- Remaining capacity recorded for key `g` (first occurrence). -/
def capOf (g : Nat) : List (Nat × Int) → Option Int
  | [] => none
  | p :: rest => if p.1 = g then some p.2 else capOf g rest

/-! ## Lemmas about the planner loop -/

theorem minByVal_mem {rem : List (Nat × Int)} {p : Nat × Int}
    (h : minByVal rem = some p) : p ∈ rem := by
  induction rem with
  | nil => simp [minByVal] at h
  | cons q rest ih =>
    cases hm : minByVal rest with
    | none =>
      simp only [minByVal, hm] at h
      injection h with h2
      subst h2
      exact List.mem_cons_self _ _
    | some r =>
      simp only [minByVal, hm] at h
      split at h
      · injection h with h2
        subst h2
        exact List.mem_cons_of_mem _ (ih hm)
      · injection h with h2
        subst h2
        exact List.mem_cons_self _ _

theorem minByVal_eq_none {rem : List (Nat × Int)} :
    minByVal rem = none ↔ rem = [] := by
  cases rem with
  | nil => simp [minByVal]
  | cons q rest =>
    cases hm : minByVal rest with
    | none => simp [minByVal, hm]
    | some r =>
      simp only [minByVal, hm]
      split <;> simp

theorem selectGpu_mem {rem : List (Nat × Int)} {g : Nat}
    (h : selectGpu rem = some g) : g ∈ keysOf rem := by
  rcases Option.map_eq_some'.mp h with ⟨p, hp, hg⟩
  exact hg ▸ List.mem_map_of_mem Prod.fst (minByVal_mem hp)

theorem selectGpu_eq_none {rem : List (Nat × Int)} :
    selectGpu rem = none ↔ rem = [] := by
  simp [selectGpu, minByVal_eq_none]

theorem keysOf_decGpu_sublist (g : Nat) (rem : List (Nat × Int)) :
    (keysOf (decGpu g rem)).Sublist (keysOf rem) := by
  induction rem with
  | nil => simp [decGpu]
  | cons p rest ih =>
    by_cases hp : p.1 = g
    · rw [decGpu, if_pos hp]
      split
      · exact List.sublist_cons_self _ _
      · simp only [keysOf, List.map_cons]
        exact List.Sublist.refl _
    · rw [decGpu, if_neg hp]
      simp only [keysOf, List.map_cons]
      exact List.Sublist.cons₂ _ ih

theorem capOf_eq_none {g : Nat} {rem : List (Nat × Int)} :
    capOf g rem = none ↔ g ∉ keysOf rem := by
  induction rem with
  | nil => simp [capOf, keysOf]
  | cons p rest ih =>
    by_cases hp : p.1 = g <;> simp [capOf, hp, keysOf, ih] <;> tauto

theorem capOf_mem {g : Nat} {v : Int} {rem : List (Nat × Int)}
    (h : capOf g rem = some v) : (g, v) ∈ rem := by
  induction rem with
  | nil => simp [capOf] at h
  | cons p rest ih =>
    by_cases hp : p.1 = g
    · rw [capOf, if_pos hp] at h
      injection h with h2
      have hpv : p = (g, v) := by
        cases p
        simp only at hp h2
        rw [hp, h2]
      rw [← hpv]
      exact List.mem_cons_self _ _
    · rw [capOf, if_neg hp] at h
      exact List.mem_cons_of_mem _ (ih h)

theorem decGpu_vals (g : Nat) :
    ∀ rem : List (Nat × Int), (∀ p ∈ rem, 1 ≤ p.2) →
      ∀ p ∈ decGpu g rem, 1 ≤ p.2 := by
  intro rem
  induction rem with
  | nil => intro _ p hp; simp [decGpu] at hp
  | cons q rest ih =>
    intro hv p hp
    by_cases hq : q.1 = g
    · rw [decGpu, if_pos hq] at hp
      split at hp
      · exact hv p (List.mem_cons_of_mem _ hp)
      · rename_i hz
        rcases List.mem_cons.mp hp with h1 | h1
        · have := hv q (List.mem_cons_self _ _)
          subst h1
          simp only
          omega
        · exact hv p (List.mem_cons_of_mem _ h1)
    · rw [decGpu, if_neg hq] at hp
      rcases List.mem_cons.mp hp with h1 | h1
      · subst h1; exact hv p (List.mem_cons_self _ _)
      · exact ih (fun r hr => hv r (List.mem_cons_of_mem _ hr)) p h1

theorem capOf_decGpu_other {q g : Nat} (hne : q ≠ g) :
    ∀ rem : List (Nat × Int), capOf q (decGpu g rem) = capOf q rem := by
  intro rem
  induction rem with
  | nil => rfl
  | cons p rest ih =>
    by_cases hp : p.1 = g
    · rw [decGpu, if_pos hp]
      split
      · simp [capOf, hp, Ne.symm hne]
      · simp [capOf, hp, Ne.symm hne]
    · rw [decGpu, if_neg hp]
      by_cases hpq : p.1 = q <;> simp [capOf, hpq, ih]

theorem capOf_decGpu_self {g : Nat} :
    ∀ rem : List (Nat × Int), (keysOf rem).Nodup → ∀ v : Int,
      capOf g rem = some v →
      capOf g (decGpu g rem) = if v - 1 = 0 then none else some (v - 1) := by
  intro rem
  induction rem with
  | nil => intro _ v h; simp [capOf] at h
  | cons p rest ih =>
    intro hnd v h
    have hnd2 : (keysOf rest).Nodup := (List.nodup_cons.mp hnd).2
    by_cases hp : p.1 = g
    · rw [capOf, if_pos hp] at h
      injection h with h2
      subst h2
      rw [decGpu, if_pos hp]
      by_cases hz : p.2 - 1 = 0
      · rw [if_pos hz, if_pos hz]
        rw [capOf_eq_none]
        intro hmem
        exact (List.nodup_cons.mp hnd).1 (hp ▸ hmem)
      · rw [if_neg hz, if_neg hz]
        rw [capOf, if_pos hp]
    · rw [capOf, if_neg hp] at h
      rw [decGpu, if_neg hp, capOf, if_neg hp]
      exact ih hnd2 v h

theorem planGo_length : ∀ (n : Nat) (rem : List (Nat × Int)),
    (planGo n rem).length = n := by
  intro n
  induction n with
  | zero => intro rem; rfl
  | succ n ih =>
    intro rem
    cases hs : selectGpu rem <;> simp [planGo, hs, ih]

theorem planGo_shape : ∀ (n : Nat) (rem : List (Nat × Int)),
    ∀ a ∈ planGo n rem, a = [] ∨ ∃ g, a = [g] := by
  intro n
  induction n with
  | zero => intro rem a ha; simp [planGo] at ha
  | succ n ih =>
    intro rem a ha
    cases hs : selectGpu rem with
    | none =>
      rw [planGo, hs] at ha
      rcases List.mem_cons.mp ha with h1 | h1
      · exact Or.inl h1
      · exact ih rem a h1
    | some g0 =>
      rw [planGo, hs] at ha
      rcases List.mem_cons.mp ha with h1 | h1
      · exact Or.inr ⟨g0, h1⟩
      · exact ih _ a h1

theorem planGo_count_notmem (g : Nat) : ∀ (n : Nat) (rem : List (Nat × Int)),
    g ∉ keysOf rem → assignCount g (planGo n rem) = 0 := by
  intro n
  induction n with
  | zero => intro rem _; rfl
  | succ n ih =>
    intro rem hg
    cases hs : selectGpu rem with
    | none =>
      have h0 := ih rem hg
      simp only [assignCount] at h0 ⊢
      rw [planGo, hs, List.countP_cons, h0]
      simp
    | some g0 =>
      have hg0 : g0 ∈ keysOf rem := selectGpu_mem hs
      have hne : ¬ (g = g0) := fun h => hg (h ▸ hg0)
      have hsub : g ∉ keysOf (decGpu g0 rem) :=
        fun h => hg ((keysOf_decGpu_sublist g0 rem).mem h)
      have h0 := ih _ hsub
      simp only [assignCount] at h0 ⊢
      rw [planGo, hs, List.countP_cons, h0]
      simp [List.contains_cons, hne]

theorem assignCount_cons_mem {g : Nat} {hd : List Nat} (tl : List (List Nat))
    (h : hd.contains g = true) :
    assignCount g (hd :: tl) = assignCount g tl + 1 := by
  simp only [assignCount, List.countP_cons, h, if_true]

theorem assignCount_cons_notmem {g : Nat} {hd : List Nat} (tl : List (List Nat))
    (h : hd.contains g = false) :
    assignCount g (hd :: tl) = assignCount g tl := by
  simp only [assignCount, List.countP_cons, h]
  simp

theorem planGo_count_le (g : Nat) : ∀ (n : Nat) (rem : List (Nat × Int)),
    (keysOf rem).Nodup → (∀ p ∈ rem, 1 ≤ p.2) → ∀ v : Int,
    capOf g rem = some v → (assignCount g (planGo n rem) : Int) ≤ v := by
  intro n
  induction n with
  | zero =>
    intro rem _ hvals v hcap
    have h1 : 1 ≤ v := by simpa using hvals _ (capOf_mem hcap)
    simp only [planGo, assignCount, List.countP_nil]
    omega
  | succ n ih =>
    intro rem hnd hvals v hcap
    cases hs : selectGpu rem with
    | none =>
      rw [selectGpu_eq_none.mp hs] at hcap
      simp [capOf] at hcap
    | some g0 =>
      have hnd2 : (keysOf (decGpu g0 rem)).Nodup :=
        hnd.sublist (keysOf_decGpu_sublist g0 rem)
      have hvals2 := decGpu_vals g0 rem hvals
      rw [planGo, hs]
      by_cases hgg : g0 = g
      · subst hgg
        rw [assignCount_cons_mem _ (by simp)]
        have hdec := capOf_decGpu_self rem hnd v hcap
        by_cases hz : v - 1 = 0
        · rw [if_pos hz] at hdec
          have h0 := planGo_count_notmem g0 n _ (capOf_eq_none.mp hdec)
          rw [h0]
          omega
        · rw [if_neg hz] at hdec
          have hrec := ih _ hnd2 hvals2 (v - 1) hdec
          push_cast at hrec ⊢
          omega
      · have hne : ¬ (g = g0) := fun h => hgg h.symm
        rw [assignCount_cons_notmem _ (by simp [hne])]
        have hcap2 : capOf g (decGpu g0 rem) = some v := by
          rw [capOf_decGpu_other (fun h => hgg h.symm)]
          exact hcap
        exact ih _ hnd2 hvals2 v hcap2

theorem planGo_count_full (g : Nat) : ∀ (n : Nat) (rem : List (Nat × Int)),
    (keysOf rem).Nodup → (∀ p ∈ rem, 1 ≤ p.2) → ∀ v : Int,
    capOf g rem = some v → [] ∈ planGo n rem →
    (assignCount g (planGo n rem) : Int) = v := by
  intro n
  induction n with
  | zero =>
    intro rem _ _ v _ hmem
    simp [planGo] at hmem
  | succ n ih =>
    intro rem hnd hvals v hcap hmem
    cases hs : selectGpu rem with
    | none =>
      rw [selectGpu_eq_none.mp hs] at hcap
      simp [capOf] at hcap
    | some g0 =>
      have hmem2 : [] ∈ planGo n (decGpu g0 rem) := by
        rw [planGo, hs] at hmem
        rcases List.mem_cons.mp hmem with h1 | h1
        · exact absurd h1.symm (List.cons_ne_nil g0 [])
        · exact h1
      have hnd2 : (keysOf (decGpu g0 rem)).Nodup :=
        hnd.sublist (keysOf_decGpu_sublist g0 rem)
      have hvals2 := decGpu_vals g0 rem hvals
      rw [planGo, hs]
      by_cases hgg : g0 = g
      · subst hgg
        rw [assignCount_cons_mem _ (by simp)]
        have hdec := capOf_decGpu_self rem hnd v hcap
        by_cases hz : v - 1 = 0
        · rw [if_pos hz] at hdec
          have h0 := planGo_count_notmem g0 n _ (capOf_eq_none.mp hdec)
          rw [h0]
          omega
        · rw [if_neg hz] at hdec
          have hrec := ih _ hnd2 hvals2 (v - 1) hdec hmem2
          push_cast at hrec ⊢
          omega
      · have hne : ¬ (g = g0) := fun h => hgg h.symm
        rw [assignCount_cons_notmem _ (by simp [hne])]
        have hcap2 : capOf g (decGpu g0 rem) = some v := by
          rw [capOf_decGpu_other (fun h => hgg h.symm)]
          exact hcap
        exact ih _ hnd2 hvals2 v hcap2 hmem2

theorem capOf_append_of_some {g : Nat} {v : Int} {l1 l2 : List (Nat × Int)}
    (h : capOf g l1 = some v) : capOf g (l1 ++ l2) = some v := by
  induction l1 with
  | nil => simp [capOf] at h
  | cons p rest ih =>
    by_cases hp : p.1 = g
    · rw [capOf, if_pos hp] at h
      rw [List.cons_append, capOf, if_pos hp]
      exact h
    · rw [capOf, if_neg hp] at h
      rw [List.cons_append, capOf, if_neg hp]
      exact ih h

theorem capOf_append_of_none {g : Nat} {l1 l2 : List (Nat × Int)}
    (h : capOf g l1 = none) : capOf g (l1 ++ l2) = capOf g l2 := by
  induction l1 with
  | nil => simp
  | cons p rest ih =>
    by_cases hp : p.1 = g
    · rw [capOf, if_pos hp] at h
      exact absurd h (by simp)
    · rw [capOf, if_neg hp] at h
      rw [List.cons_append, capOf, if_neg hp]
      exact ih h

theorem capOf_initial (c : Int) : ∀ n g : Nat,
    capOf g ((List.range n).map (fun i => (i, c))) =
      if g < n then some c else none := by
  intro n
  induction n with
  | zero => intro g; simp [capOf]
  | succ n ih =>
    intro g
    rw [List.range_succ, List.map_append]
    by_cases hg : g < n
    · have h1 : capOf g ((List.range n).map (fun i => (i, c))) = some c := by
        rw [ih g, if_pos hg]
      rw [capOf_append_of_some h1, if_pos (by omega)]
    · have h1 : capOf g ((List.range n).map (fun i => (i, c))) = none := by
        rw [ih g, if_neg hg]
      rw [capOf_append_of_none h1]
      by_cases hgn : g = n
      · simp [capOf, hgn]
      · have h2 : ¬ (g < n + 1) := by omega
        have h3 : ¬ (n = g) := fun h => hgn h.symm
        rw [if_neg h2]
        simp [capOf, h3]

theorem keysOf_initial (c : Int) (n : Nat) :
    keysOf ((List.range n).map (fun i => (i, c))) = List.range n := by
  have h : (Prod.fst ∘ fun i : Nat => (i, c)) = id := rfl
  rw [keysOf, List.map_map, h, List.map_id]

/-- The formatted traceback text is never empty. -/
theorem formatException_ne_empty (e : PyExc) (s : String) :
    formatException e s ≠ "" := by
  intro h
  have h2 := congrArg String.length h
  simp [formatException, String.length_append] at h2
  exact absurd h2.1.1 (by decide)

/-! ## Claim theorems -/

/-- C1: evaluating the code at num_jobs=5, num_gpus=2, max_workers_per_gpu=2
(cpu_count irrelevant, taken as 4).  The per-worker GPU assignments produced
are worker 0 on GPU 0, worker 1 again on GPU 0, workers 2 and 3 on GPU 1,
worker 4 on CPU — the selection by smallest remaining capacity fills GPU 0
to its cap before touching GPU 1, not the round-robin mapping
0 on GPU 0, 1 on GPU 1, 2 on GPU 0, 3 on GPU 1 that the claim states. -/
theorem c1_gpu_assignment_fills_first :
    (workerInitKwargsOf 5 2 none 2).map
        (fun l => l.map InitKwargs.gpu_device_nums) =
      some [[0], [0], [1], [1], []] ∧
    worker_pool_with_gpu_assignments 4 5 2 none 2 none =
      Except.ok (some ⟨5, none,
        PoolInitializer.entryPoint
          ([[0], [0], [1], [1], []].map
            (fun a => ⟨a, some ("tensorflow-default")⟩))
          ([[0], [0], [1], [1], []].map
            (fun a => ⟨a, some ("tensorflow-default")⟩))⟩) :=
  ⟨rfl, rfl⟩

/-- C2 counterexample: with processes = 1 and the non-null but EMPTY kwargs
list, the length mismatch 0 vs 1 raises nothing — the empty list is falsy in
Python, so the assert is skipped and a pool is built with the bare
initializer. -/
theorem c2_counterexample_empty_kwargs_list :
    make_worker_pool 4 (some 1) true (some ([] : List InitKwargs)) none =
      Except.ok ⟨1, none, PoolInitializer.plain⟩ :=
  rfl

/-- C2 amended: for every processes count P at least 1 and every NON-EMPTY
list of initializer kwargs whose length differs from P, building the pool
with a non-null initializer fails with the assertion error (the spec calls
it ConfigurationError) at pool-build time, before any pool is constructed. -/
theorem c2_length_mismatch_raises (cpuCount P : Nat) (kws : List InitKwargs)
    (mtpw : Option Int) (hP : 1 ≤ P) (hne : kws ≠ []) (hlen : kws.length ≠ P) :
    make_worker_pool cpuCount (some P) true (some kws) mtpw =
      Except.error BuildError.assertionError := by
  have hP0 : P ≠ 0 := by omega
  simp [make_worker_pool, hP0, hlen, List.isEmpty_eq_false.mpr hne]

/-- Witness for C2 at cpu_count 4, P = 3 and a kwargs list of length 2. -/
theorem c2_witness :
    1 ≤ 3 ∧
    ([⟨[], none⟩, ⟨[], none⟩] : List InitKwargs) ≠ [] ∧
    ([⟨[], none⟩, ⟨[], none⟩] : List InitKwargs).length ≠ 3 ∧
    make_worker_pool 4 (some 3) true
        (some [⟨[], none⟩, ⟨[], none⟩]) none =
      Except.error BuildError.assertionError :=
  ⟨by decide, by decide, by decide,
    c2_length_mismatch_raises 4 3 [⟨[], none⟩, ⟨[], none⟩] none
      (by decide) (by decide) (by decide)⟩

/-- C3: evaluating the code at num_jobs=0 with cpu_count() = 4 and default
remaining arguments: the call does NOT return the "no pool" sentinel; it
builds a pool with cpu_count() workers, because
num_jobs=0 is replaced by cpu_count() before the zero test, making the
sentinel branch unreachable whenever cpu_count() is positive. -/
theorem c3_num_jobs_zero_builds_pool :
    worker_pool_with_gpu_assignments 4 0 0 none 1 none =
      Except.ok (some ⟨4, none, PoolInitializer.plain⟩) :=
  rfl

/-- C4 counterexample: at num_workers = 1, num_gpus = 0,
max_workers_per_gpu = 1 (all within the quantifiers of the claim, which
allows num_gpus = 0), the planning block is skipped entirely and no list of
InitArgSets is produced at all, refuting the claim that a list of length
num_workers is always produced. -/
theorem c4_counterexample_zero_gpus :
    workerInitKwargsOf 1 0 none 1 = none ∧
    ¬ ∃ l : List InitKwargs,
        workerInitKwargsOf 1 0 none 1 = some l ∧ l.length = 1 := by
  refine ⟨rfl, ?_⟩
  rintro ⟨l, hl, _⟩
  rw [show workerInitKwargsOf 1 0 none 1 = none from rfl] at hl
  exact Option.noConfusion hl

/-- C4 amended: for every num_workers at least 1, num_gpus at least 1 (not 0:
with zero GPUs the planning is skipped and no list is produced) and
max_workers_per_gpu at least 1, the planning produces exactly one InitArgSet
per worker index (a list of length num_workers), each holding zero or one
GPU id; no GPU id appears in more than max_workers_per_gpu of the
InitArgSets; and no worker gets a CPU-only (empty) assignment while some GPU
still has unused capacity: if any assignment is empty, every GPU id below
num_gpus occurs in exactly max_workers_per_gpu InitArgSets. -/
theorem c4_planner_properties (numWorkers numGpus cap : Nat)
    (backend : Option String) (hW : 1 ≤ numWorkers) (hG : 1 ≤ numGpus)
    (hC : 1 ≤ cap) :
    ∃ l, workerInitKwargsOf numWorkers numGpus backend (cap : Int) = some l ∧
      l.length = numWorkers ∧
      (∀ e ∈ l, e.gpu_device_nums.length ≤ 1) ∧
      (∀ g : Nat, l.countP (fun e => e.gpu_device_nums.contains g) ≤ cap) ∧
      ((∃ e ∈ l, e.gpu_device_nums = []) →
        ∀ g, g < numGpus →
          l.countP (fun e => e.gpu_device_nums.contains g) = cap) := by
  have hG0 : numGpus ≠ 0 := by omega
  have hinit : planGpuAssignments numWorkers numGpus (cap : Int) =
      planGo numWorkers ((List.range numGpus).map (fun i => (i, (cap : Int)))) :=
    rfl
  generalize hplan : planGo numWorkers
      ((List.range numGpus).map (fun i => (i, (cap : Int)))) = plan at hinit
  have hnd : (keysOf ((List.range numGpus).map
      (fun i => (i, (cap : Int))))).Nodup := by
    rw [keysOf_initial]
    exact List.nodup_range numGpus
  have hvals : ∀ p ∈ (List.range numGpus).map (fun i => (i, (cap : Int))),
      1 ≤ p.2 := by
    intro p hp
    obtain ⟨i, _, rfl⟩ := List.mem_map.mp hp
    show (1 : Int) ≤ (cap : Int)
    exact_mod_cast hC
  have hcomp : ∀ g : Nat,
      ((fun e : InitKwargs => e.gpu_device_nums.contains g) ∘
        (fun a => (⟨a, forcedBackend backend⟩ : InitKwargs))) =
      (fun a : List Nat => a.contains g) := fun _ => rfl
  refine ⟨plan.map (fun a => ⟨a, forcedBackend backend⟩), ?_, ?_, ?_, ?_, ?_⟩
  · simp only [workerInitKwargsOf, if_pos hG0, hinit]
  · rw [List.length_map, ← hplan, planGo_length]
  · intro e he
    obtain ⟨a, ha, rfl⟩ := List.mem_map.mp he
    rw [← hplan] at ha
    rcases planGo_shape numWorkers _ a ha with h | ⟨g, h⟩ <;> simp [h]
  · intro g
    rw [List.countP_map, hcomp g]
    by_cases hg : g < numGpus
    · have hcap : capOf g ((List.range numGpus).map
          (fun i => (i, (cap : Int)))) = some (cap : Int) := by
        rw [capOf_initial]
        exact if_pos hg
      have hle := planGo_count_le g numWorkers _ hnd hvals _ hcap
      rw [hplan] at hle
      exact_mod_cast hle
    · have hnone : capOf g ((List.range numGpus).map
          (fun i => (i, (cap : Int)))) = none := by
        rw [capOf_initial]
        exact if_neg hg
      have h0 := planGo_count_notmem g numWorkers _ (capOf_eq_none.mp hnone)
      rw [hplan] at h0
      simp only [assignCount] at h0
      rw [h0]
      omega
  · intro hex g hg
    obtain ⟨e, he, hempty⟩ := hex
    obtain ⟨a, ha, rfl⟩ := List.mem_map.mp he
    have ha2 : ([] : List Nat) ∈ plan := by
      have h : a = [] := hempty
      rw [← h]
      exact ha
    rw [← hplan] at ha2
    have hcap : capOf g ((List.range numGpus).map
        (fun i => (i, (cap : Int)))) = some (cap : Int) := by
      rw [capOf_initial]
      exact if_pos hg
    have hfull := planGo_count_full g numWorkers _ hnd hvals _ hcap ha2
    rw [hplan] at hfull
    simp only [assignCount] at hfull
    rw [List.countP_map, hcomp g]
    exact_mod_cast hfull

/-- Witness for C4 at num_workers = 5, num_gpus = 2, max_workers_per_gpu = 2. -/
theorem c4_witness :
    (1 ≤ 5 ∧ 1 ≤ 2 ∧ 1 ≤ 2) ∧
    ∃ l, workerInitKwargsOf 5 2 none ((2 : Nat) : Int) = some l ∧
      l.length = 5 ∧
      (∀ e ∈ l, e.gpu_device_nums.length ≤ 1) ∧
      (∀ g : Nat, l.countP (fun e => e.gpu_device_nums.contains g) ≤ 2) ∧
      ((∃ e ∈ l, e.gpu_device_nums = []) →
        ∀ g, g < 2 → l.countP (fun e => e.gpu_device_nums.contains g) = 2) :=
  ⟨⟨by decide, by decide, by decide⟩,
    c4_planner_properties 5 2 2 none (by decide) (by decide) (by decide)⟩

/-- C5 counterexample: for a ValueError with message "boom" and one stack
frame, str of the wrapper does not equal str of the original exception
followed by the formatted traceback: the wrapper prefix is
Exception.__str__ of the wrapper itself, which is empty because __init__
sets no args. -/
theorem c5_counterexample_missing_message :
    (WrapException.capture ⟨"ValueError", ["boom"]⟩ ("  frame\n")).str ≠
      PyExc.str ⟨"ValueError", ["boom"]⟩ ++
        (WrapException.capture ⟨"ValueError", ["boom"]⟩ ("  frame\n")).formatted := by
  decide

/-- C5 amended: the string representation of the wrapper equals the EMPTY
wrapper message (the wrapper own Exception string, since no args are set)
followed by the separator line "Original traceback:" and the captured
formatted traceback text; the original exception message appears only
inside the formatted traceback, not as a prefix. -/
theorem c5_wrap_exception_str (e : PyExc) (stack : String) :
    (WrapException.capture e stack).str =
      "\nOriginal traceback:\n" ++ (WrapException.capture e stack).formatted :=
  rfl

/-- C6: call_wrapped returns the function result when the function does not
raise; when it raises, call_wrapped raises a wrapper exception carrying the
original exception object in its exception attribute and a non-empty
formatted traceback capturing the failure point. -/
theorem c6_call_wrapped {β : Type} (result : Except (PyExc × String) β) :
    (∀ v, result = Except.ok v → call_wrapped result = Except.ok v) ∧
    (∀ e stack, result = Except.error (e, stack) →
      call_wrapped result = Except.error (WrapException.capture e stack) ∧
      (WrapException.capture e stack).exception = e ∧
      (WrapException.capture e stack).formatted ≠ "") := by
  constructor
  · intro v hv
    subst hv
    rfl
  · intro e stack hv
    subst hv
    exact ⟨rfl, rfl, formatException_ne_empty e stack⟩

/-- Witness for C6: the returning branch at the value 7 and the raising
branch at a ValueError with message "boom". -/
theorem c6_witness :
    (call_wrapped (Except.ok 7 : Except (PyExc × String) Nat) =
      Except.ok 7) ∧
    (call_wrapped (Except.error (⟨"ValueError", ["boom"]⟩, "  frame\n") :
        Except (PyExc × String) Nat) =
      Except.error (WrapException.capture ⟨"ValueError", ["boom"]⟩ ("  frame\n")) ∧
     (WrapException.capture ⟨"ValueError", ["boom"]⟩ ("  frame\n")).exception =
      ⟨"ValueError", ["boom"]⟩ ∧
     (WrapException.capture ⟨"ValueError", ["boom"]⟩ ("  frame\n")).formatted ≠ "") :=
  ⟨(c6_call_wrapped _).1 7 rfl, (c6_call_wrapped _).2 _ _ rfl⟩

/-- C7: when the primary queue is empty and the backup queue is non-empty,
the worker obtains the head of the backup queue and immediately pushes that
same set back onto the backup queue, so the backup queue content count after
the read equals its count before the read. -/
theorem c7_backup_queue_invariant (backup : List InitKwargs)
    (h : backup ≠ []) :
    ∃ k, backup.head? = some k ∧
      worker_init_entry_point [] backup = some (k, [], backup.tail ++ [k]) ∧
      (backup.tail ++ [k]).length = backup.length := by
  match backup, h with
  | k :: rest, _ => exact ⟨k, rfl, rfl, by simp⟩

/-- Witness for C7 at a backup queue holding two kwargs sets. -/
theorem c7_witness :
    ([⟨[0], none⟩, ⟨[1], none⟩] : List InitKwargs) ≠ [] ∧
    ∃ k, ([⟨[0], none⟩, ⟨[1], none⟩] : List InitKwargs).head? = some k ∧
      worker_init_entry_point [] [⟨[0], none⟩, ⟨[1], none⟩] =
        some (k, [], ([⟨[0], none⟩, ⟨[1], none⟩] : List InitKwargs).tail ++ [k]) ∧
      (([⟨[0], none⟩, ⟨[1], none⟩] : List InitKwargs).tail ++ [k]).length =
        ([⟨[0], none⟩, ⟨[1], none⟩] : List InitKwargs).length :=
  ⟨by decide, c7_backup_queue_invariant [⟨[0], none⟩, ⟨[1], none⟩] (by decide)⟩

/-- C8: for every download name containing no slash and every filename, when
the resolved path does not exist and existence checking is enabled, get_path
raises the missing-download error whose message contains the remediation
fetch command naming the download. -/
theorem c8_missing_download_error (dir dn fn : String) (fsE : String → Bool)
    (hslash : dn.data.contains (Char.ofNat 47) = false)
    (hmiss : fsE (osPathJoin (osPathJoin dir dn) fn) = false) :
    ∃ msg, get_path dir fsE dn fn true = Except.error msg ∧
      ∃ a b, msg = a ++ ("mhcflurry-downloads fetch " ++ dn) ++ b := by
  have herr : get_path dir fsE dn fn true = Except.error
      ("Missing MHCflurry downloadable file: " ++
        shellQuote (osPathJoin (osPathJoin dir dn) fn) ++
        ". To download this data, run:\n\tmhcflurry-downloads fetch " ++
        dn ++ "\nin a shell.") := by
    have hmem : Char.ofNat 47 ∉ dn.data := by simpa using hslash
    simp [get_path, hmem, hmiss]
  refine ⟨_, herr, ?_⟩
  refine ⟨"Missing MHCflurry downloadable file: " ++
    shellQuote (osPathJoin (osPathJoin dir dn) fn) ++
    (". To download this data, run:\n\t"), "\nin a shell.", ?_⟩
  have hmerge : (". To download this data, run:\n\t") ++
      ("mhcflurry-downloads fetch " ++ dn) =
      (". To download this data, run:\n\tmhcflurry-downloads fetch ") ++ dn := by
    rw [← String.append_assoc]
    congr 1
  rw [String.append_assoc _ (". To download this data, run:\n\t"), hmerge]
  simp [String.append_assoc]

/-- Witness for C8: downloads dir /data, download name models, filename
weights.csv, on an empty filesystem. -/
theorem c8_witness :
    ("models" : String).data.contains (Char.ofNat 47) = false ∧
    (fun _ : String => false)
        (osPathJoin (osPathJoin ("/data") ("models")) ("weights.csv")) = false ∧
    ∃ msg, get_path ("/data") (fun _ => false) ("models") ("weights.csv") true =
        Except.error msg ∧
      ∃ a b, msg = a ++ ("mhcflurry-downloads fetch " ++ ("models")) ++ b :=
  ⟨by decide, rfl,
    c8_missing_download_error ("/data") ("models") ("weights.csv")
      (fun _ => false) (by decide) rfl⟩

/-- C9: max_tasks_per_worker = 0 is falsy, so the maxtasksperchild option is
not set and pool building behaves identically to max_tasks_per_worker = None
for all remaining arguments. -/
theorem c9_max_tasks_zero_like_none (cpuCount : Nat) (processes : Option Nat)
    (hasInit : Bool) (kws : Option (List InitKwargs)) :
    make_worker_pool cpuCount processes hasInit kws (some 0) =
      make_worker_pool cpuCount processes hasInit kws none :=
  rfl

/-- C10: for every download name containing no slash and every filename,
get_path with test_exists = false returns the joined path
downloads_dir, download name, filename and never raises the missing-file
error, whatever the filesystem contains. -/
theorem c10_no_existence_check_returns_path (dir : String)
    (fsE : String → Bool) (dn fn : String)
    (hslash : dn.data.contains (Char.ofNat 47) = false) :
    get_path dir fsE dn fn false =
      Except.ok (osPathJoin (osPathJoin dir dn) fn) := by
  have hmem : Char.ofNat 47 ∉ dn.data := by simpa using hslash
  simp [get_path, hmem]

/-- Witness for C10: download name models, filename weights.csv, with a
filesystem on which nothing exists. -/
theorem c10_witness :
    ("models" : String).data.contains (Char.ofNat 47) = false ∧
    get_path ("/data") (fun _ => false) ("models") ("weights.csv") false =
      Except.ok (osPathJoin (osPathJoin ("/data") ("models")) ("weights.csv")) :=
  ⟨by decide,
    c10_no_existence_check_returns_path ("/data") (fun _ => false) ("models")
      ("weights.csv") (by decide)⟩

end Mhcflurry
